import Mathlib

/-!
Shallow embedding of the workertown search storage adapters
(`packages/search/src/storage/sqlite.ts` and
`packages/search/src/storage/d1-storage-adapter.ts`).

The two SQL tables are modelled as lists of rows; timestamps are `Nat`
(milliseconds, the value of `Date.getTime()`); the opaque JSON payload is
kept as its serialized `String` form (`JSON.stringify`/`JSON.parse` is a
round trip on it).  SQL `WHERE col IN (list)` is modelled as list
membership (matching no rows for an empty list).  `GROUP BY id` queries
are modelled row-per-document, which agrees with the SQL under the
schema's unique index on `id` (captured by the `WF` predicate).  A
breached unique index aborts the offending statement, which commits
nothing; the adapters run their statements sequentially with no
transaction, so a multi-statement operation returns the state the
earlier statements already committed alongside the surfaced error
(`DB × Except String _`).
-/

/-- Equality of `Except` values is decidable when it is on both sides. -/
instance {ε α : Type} [DecidableEq ε] [DecidableEq α] : DecidableEq (Except ε α) := fun
  | .error e, .error e' => if h : e = e' then .isTrue (by rw [h]) else .isFalse (by simp [h])
  | .error _, .ok _ => .isFalse (by simp)
  | .ok _, .error _ => .isFalse (by simp)
  | .ok a, .ok a' => if h : a = a' then .isTrue (by rw [h]) else .isFalse (by simp [h])

namespace Workertown

/-- A row of the `wt_search_documents` / `search_documents` table. -/
structure DocRow where
  id : String
  tenant : String
  index : String
  data : String
  created_at : Nat
  updated_at : Nat
deriving Repr, DecidableEq

/-- A row of the `wt_search_tags` / `search_tags` table. -/
structure TagRow where
  tag : String
  search_document_id : String
deriving Repr, DecidableEq

/-- The persistent state: both tables. -/
structure DB where
  documents : List DocRow
  tags : List TagRow
deriving Repr, DecidableEq

/-- `GetDocumentsOptions` from `storage-adapter.ts`: tenant plus the
optional `index` and `limit` fields. -/
structure GetDocumentsOptions where
  tenant : String
  index : Option String
  limit : Option Nat
deriving Repr, DecidableEq

/-- `UpsertSearchDocumentBody`: the caller-supplied document fields
(`data` already serialized). -/
structure UpsertBody where
  id : String
  tenant : String
  index : String
  data : String
deriving Repr, DecidableEq

/-- The `SearchDocument` shape returned by the sqlite adapter
(`_formatDocument`), including the `tags` field. -/
structure SearchDocument where
  id : String
  tenant : String
  index : String
  data : String
  tags : List String
  createdAt : Nat
  updatedAt : Nat
deriving Repr, DecidableEq

/-- The document shape returned by the D1 adapter's `_formatDocument`,
which has no `tags` field. -/
structure D1SearchDocument where
  id : String
  tenant : String
  index : String
  data : String
  createdAt : Nat
  updatedAt : Nat
deriving Repr, DecidableEq

/-- The value returned by `SqliteStorageAdapter.upsertDocument`. -/
structure UpsertResult where
  id : String
  tenant : String
  index : String
  data : String
  tags : List String
  createdAt : Nat
  updatedAt : Nat
deriving Repr, DecidableEq

/-- The value returned by `D1StorageAdapter.indexDocument` (no `tags`). -/
structure D1IndexResult where
  id : String
  tenant : String
  index : String
  data : String
  createdAt : Nat
  updatedAt : Nat
deriving Repr, DecidableEq

/-- The optional `index` filter: `if (options.index) query.where("index",
"=", options.index)` — per JS truthiness an absent or empty-string index
applies no filter. -/
def indexMatches (optIndex : Option String) (idx : String) : Bool :=
  match optIndex with
  | none => true
  | some i => if i.isEmpty then true else idx == i

/-- `.limit(options.limit)`: cap the result when a limit is present. -/
def takeOpt (limit : Option Nat) (l : List α) : List α :=
  match limit with
  | none => l
  | some n => l.take n

/-- Insert a row into a list already sorted by `updated_at` descending,
keeping it before later rows with the same timestamp (stable). -/
def insertByUpdatedDesc (r : DocRow) : List DocRow → List DocRow
  | [] => [r]
  | x :: xs =>
    if r.updated_at < x.updated_at then x :: insertByUpdatedDesc r xs
    else r :: x :: xs

/-- `ORDER BY updated_at DESC` as a stable sort on the table's row
order (there is no further ORDER BY key in either adapter). -/
def sortByUpdatedDesc : List DocRow → List DocRow
  | [] => []
  | x :: xs => insertByUpdatedDesc x (sortByUpdatedDesc xs)

/-- All tag values stored for a document id (the `group_concat` of the
unrestricted left join with the tags table). -/
def tagsFor (db : DB) (docId : String) : List String :=
  (db.tags.filter (fun t => t.search_document_id == docId)).map (fun t => t.tag)

/-- `SqliteStorageAdapter._formatDocument` applied to a joined row of
`getDocuments`/`getDocument`: document fields plus all its tags. -/
def formatDocument (db : DB) (d : DocRow) : SearchDocument :=
  { id := d.id, tenant := d.tenant, index := d.index, data := d.data
    tags := tagsFor db d.id, createdAt := d.created_at, updatedAt := d.updated_at }

/-- `D1StorageAdapter._formatDocument`: document fields only. -/
def d1FormatDocument (d : DocRow) : D1SearchDocument :=
  { id := d.id, tenant := d.tenant, index := d.index, data := d.data
    createdAt := d.created_at, updatedAt := d.updated_at }

/-- Number of tag rows of `docId` whose tag is in the query's tag list:
the per-group `count(documents.id)` of `getDocumentsByTags` (the join is
restricted to `tag IN tags`, and each matching tag row contributes one
counted row). -/
def matchCount (db : DB) (tags : List String) (docId : String) : Nat :=
  (db.tags.filter (fun t => t.search_document_id == docId && tags.contains t.tag)).length

/-- The rows selected by `getDocumentsByTags` before ordering/limit: the
tenant (and optional index) filter, plus the HAVING clause
`count(id) = tags.length`; a document with no matching tag row produces
no group at all, hence the positivity condition. -/
def byTagsRows (db : DB) (tags : List String) (options : GetDocumentsOptions) :
    List DocRow :=
  db.documents.filter (fun d =>
    d.tenant == options.tenant && indexMatches options.index d.index &&
    matchCount db tags d.id == tags.length && 0 < matchCount db tags d.id)

/-- The `tags` column produced by `getDocumentsByTags` for one document:
`group_concat` over the joined rows, which are restricted to the queried
tag list, so only the matched tags appear. -/
def matchedTags (db : DB) (tags : List String) (docId : String) : List String :=
  (db.tags.filter (fun t => t.search_document_id == docId && tags.contains t.tag)).map
    (fun t => t.tag)

/-- `_formatDocument` applied to a `getDocumentsByTags` row. -/
def formatMatched (db : DB) (tags : List String) (d : DocRow) : SearchDocument :=
  { id := d.id, tenant := d.tenant, index := d.index, data := d.data
    tags := matchedTags db tags d.id, createdAt := d.created_at, updatedAt := d.updated_at }

/-- `SqliteStorageAdapter.getDocuments`. -/
def sqliteGetDocuments (db : DB) (options : GetDocumentsOptions) : List SearchDocument :=
  let rows := db.documents.filter (fun d =>
    d.tenant == options.tenant && indexMatches options.index d.index)
  (takeOpt options.limit (sortByUpdatedDesc rows)).map (formatDocument db)

/-- `SqliteStorageAdapter.getDocumentsByTags`. -/
def sqliteGetDocumentsByTags (db : DB) (tags : List String)
    (options : GetDocumentsOptions) : List SearchDocument :=
  (takeOpt options.limit (sortByUpdatedDesc (byTagsRows db tags options))).map
    (formatMatched db tags)

/-- `SqliteStorageAdapter.getDocument`: lookup by `id` alone (no tenant
filter), joined with the document's tags. -/
def sqliteGetDocument (db : DB) (id : String) : Option SearchDocument :=
  match db.documents.find? (fun d => d.id == id) with
  | none => none
  | some d => some (formatDocument db d)

/-- The error message used for a breached unique index. -/
def uniqueViolation : String := "UNIQUE constraint failed"

/-- Insert into the documents table, honouring the schema's unique index
on `id` alone (`wt_search_documents_id_idx` / `search_documents_id_idx`). -/
def insertDocRow (db : DB) (row : DocRow) : Except String DB :=
  if db.documents.any (fun d => d.id == row.id) then Except.error uniqueViolation
  else Except.ok { db with documents := db.documents ++ [row] }

/-- Insert a batch into the tags table, honouring the unique index on
`(tag, search_document_id)`. -/
def insertTagRows (db : DB) (rows : List TagRow) : Except String DB :=
  if rows.Nodup ∧ ∀ r ∈ rows, r ∉ db.tags then
    Except.ok { db with tags := db.tags ++ rows }
  else Except.error uniqueViolation

/-- The tag rows currently stored for the document (`existingTags`). -/
def existingTagRows (db : DB) (docId : String) : List TagRow :=
  db.tags.filter (fun t => t.search_document_id == docId)

/-- The removal set computed by `SqliteStorageAdapter.upsertDocument`:
`existingTags.filter((e) => !tagSet.has(e.tag))` where `tagSet` is the
set built from those same existing tags. -/
def sqliteTagsToRemove (db : DB) (docId : String) : List TagRow :=
  let existingTags := existingTagRows db docId
  let tagSet := existingTags.map (fun t => t.tag)
  existingTags.filter (fun e => !tagSet.contains e.tag)

/-- The shared tag-diff application given the computed removal set:
insert `tagsToAdd` (skipped when empty), then delete the rows whose tag
is in `tagsToRemove` (skipped when empty).  A failing insert statement
commits nothing, so the error is surfaced with the state unchanged. -/
def applyTagDiff (db : DB) (docId : String) (tagsToAdd : List String)
    (tagsToRemove : List TagRow) : DB × Except String Unit :=
  let addWrite : Except String DB :=
    if tagsToAdd.length > 0 then
      insertTagRows db (tagsToAdd.map (fun t => { tag := t, search_document_id := docId }))
    else Except.ok db
  match addWrite with
  | Except.error s => (db, Except.error s)
  | Except.ok db' =>
    if tagsToRemove.length > 0 then
      ({ db' with tags := db'.tags.filter (fun t =>
        !(t.search_document_id == docId && tagsToRemove.any (fun r => r.tag == t.tag))) },
       Except.ok ())
    else (db', Except.ok ())

/-- `createdAt` of the returned document:
`existing?.created_at ? new Date(existing.created_at) : now` — note the
JS truthiness on the number (a stored `0` falls back to `now`). -/
def returnedCreatedAt (existing : Option DocRow) (now : Nat) : Nat :=
  match existing with
  | some e => if e.created_at == 0 then now else e.created_at
  | none => now

/-- The existence check shared by both adapters: a row matching `id`,
`tenant` and `index` together. -/
def findExisting (db : DB) (document : UpsertBody) : Option DocRow :=
  db.documents.find? (fun d =>
    d.id == document.id && d.tenant == document.tenant && d.index == document.index)

/-- The sqlite document-row write: insert with
`created_at = updated_at = now` when the existence check found nothing,
else update `data`/`updated_at` of the rows matching `id` alone. -/
def sqliteDocWrite (db : DB) (document : UpsertBody) (now : Nat)
    (existing : Option DocRow) : Except String DB :=
  match existing with
  | none =>
    insertDocRow db
      { id := document.id, tenant := document.tenant, index := document.index
        data := document.data, created_at := now, updated_at := now }
  | some _ =>
    Except.ok { db with documents := db.documents.map (fun d =>
      if d.id == document.id then { d with data := document.data, updated_at := now }
      else d) }

/-- The sqlite tag block: skipped entirely for an empty tag list, else
the diff of the supplied list against the stored tags, with the
(always-empty) removal set `sqliteTagsToRemove`. -/
def sqliteTagWrite (db1 : DB) (docId : String) (tags : List String) :
    DB × Except String Unit :=
  if tags.length > 0 then
    applyTagDiff db1 docId
      (tags.filter (fun t => !((existingTagRows db1 docId).map
        (fun t => t.tag)).contains t))
      (sqliteTagsToRemove db1 docId)
  else (db1, Except.ok ())

/-- `SqliteStorageAdapter.upsertDocument`: existence check on
`(id, tenant, index)`, the document-row write, then the tag block; the
returned value echoes the supplied fields and tag list.  There is no
transaction: a tag-stage failure surfaces alongside the state the
already-committed document write produced. -/
def sqliteUpsertDocument (db : DB) (document : UpsertBody) (tags : List String)
    (now : Nat) : DB × Except String UpsertResult :=
  match sqliteDocWrite db document now (findExisting db document) with
  | Except.error s => (db, Except.error s)
  | Except.ok db1 =>
    match sqliteTagWrite db1 document.id tags with
    | (db2, Except.error s) => (db2, Except.error s)
    | (db2, Except.ok _) =>
      (db2, Except.ok
        { id := document.id, tenant := document.tenant, index := document.index
          data := document.data, tags := tags
          createdAt := returnedCreatedAt (findExisting db document) now
          updatedAt := now })

/-- `SqliteStorageAdapter.deleteDocument`: delete the document rows with
this `id` and the tag rows referencing it. -/
def sqliteDeleteDocument (db : DB) (id : String) : DB :=
  { documents := db.documents.filter (fun d => !(d.id == id))
    tags := db.tags.filter (fun t => !(t.search_document_id == id)) }

/-- `SqliteStorageAdapter.getTags`: the distinct tag vocabulary. -/
def sqliteGetTags (db : DB) : List String :=
  (db.tags.map (fun t => t.tag)).eraseDups

/-- `D1StorageAdapter.getDocuments` (no tags join). -/
def d1GetDocuments (db : DB) (options : GetDocumentsOptions) : List D1SearchDocument :=
  let rows := db.documents.filter (fun d =>
    d.tenant == options.tenant && indexMatches options.index d.index)
  (takeOpt options.limit (sortByUpdatedDesc rows)).map d1FormatDocument

/-- `D1StorageAdapter.getDocumentsByTags` (inner join, `selectAll` of the
document columns only). -/
def d1GetDocumentsByTags (db : DB) (tags : List String)
    (options : GetDocumentsOptions) : List D1SearchDocument :=
  (takeOpt options.limit (sortByUpdatedDesc (byTagsRows db tags options))).map
    d1FormatDocument

/-- `D1StorageAdapter.getDocument`: lookup by `id` alone. -/
def d1GetDocument (db : DB) (id : String) : Option D1SearchDocument :=
  match db.documents.find? (fun d => d.id == id) with
  | none => none
  | some d => some (d1FormatDocument d)

/-- The removal set computed by `D1StorageAdapter.indexDocument`:
`existingTags.filter((e) => tags.find((t) => t === e.tag) === undefined)`. -/
def d1TagsToRemove (db : DB) (docId : String) (tags : List String) : List TagRow :=
  (existingTagRows db docId).filter (fun e => !tags.contains e.tag)

/-- The D1 document-row write: as the sqlite one, except the update
filters on `id`, `tenant` and `index` together. -/
def d1DocWrite (db : DB) (document : UpsertBody) (now : Nat)
    (existing : Option DocRow) : Except String DB :=
  match existing with
  | none =>
    insertDocRow db
      { id := document.id, tenant := document.tenant, index := document.index
        data := document.data, created_at := now, updated_at := now }
  | some _ =>
    Except.ok { db with documents := db.documents.map (fun d =>
      if d.id == document.id && d.tenant == document.tenant &&
          d.index == document.index then
        { d with data := document.data, updated_at := now }
      else d) }

/-- The D1 tag block: as the sqlite one, except the removal set compares
the existing tags against the supplied tag list. -/
def d1TagWrite (db1 : DB) (docId : String) (tags : List String) :
    DB × Except String Unit :=
  if tags.length > 0 then
    applyTagDiff db1 docId
      (tags.filter (fun t => !((existingTagRows db1 docId).map
        (fun e => e.tag)).contains t))
      (d1TagsToRemove db1 docId tags)
  else (db1, Except.ok ())

/-- `D1StorageAdapter.indexDocument`: existence check, document-row
write, tag block; the returned value has no `tags` field.  As in the
sqlite adapter, a tag-stage failure leaves the committed document write
in place. -/
def d1IndexDocument (db : DB) (document : UpsertBody) (tags : List String)
    (now : Nat) : DB × Except String D1IndexResult :=
  match d1DocWrite db document now (findExisting db document) with
  | Except.error s => (db, Except.error s)
  | Except.ok db1 =>
    match d1TagWrite db1 document.id tags with
    | (db2, Except.error s) => (db2, Except.error s)
    | (db2, Except.ok _) =>
      (db2, Except.ok
        { id := document.id, tenant := document.tenant, index := document.index
          data := document.data
          createdAt := returnedCreatedAt (findExisting db document) now
          updatedAt := now })

/-- `D1StorageAdapter.deleteDocument` (same statements as sqlite). -/
def d1DeleteDocument (db : DB) (id : String) : DB :=
  { documents := db.documents.filter (fun d => !(d.id == id))
    tags := db.tags.filter (fun t => !(t.search_document_id == id)) }

/-- `D1StorageAdapter.getTags` (same statements as sqlite). -/
def d1GetTags (db : DB) : List String :=
  (db.tags.map (fun t => t.tag)).eraseDups

/-- One call's arguments for a sequence of sqlite upserts. -/
structure UpsertCall where
  document : UpsertBody
  tags : List String
  now : Nat
deriving Repr, DecidableEq

/-- Run a sequence of `sqliteUpsertDocument` calls, each one continuing
from the state the previous call's statements committed (also after a
failed call, whose document write persists). -/
def runSqliteUpserts (db : DB) : List UpsertCall → DB
  | [] => db
  | c :: cs => runSqliteUpserts (sqliteUpsertDocument db c.document c.tags c.now).1 cs

/-- The schema's unique indexes as a state invariant: `id` is unique in
the documents table, `(tag, search_document_id)` pairs are unique in the
tags table. -/
def WF (db : DB) : Prop :=
  (db.documents.map (fun d => d.id)).Nodup ∧ db.tags.Nodup

instance (db : DB) : Decidable (WF db) := by
  unfold WF; infer_instance

/-- The spec's referential-integrity invariant: every tag row references
an existing document. -/
def RefIntegrity (db : DB) : Prop :=
  ∀ t ∈ db.tags, t.search_document_id ∈ db.documents.map (fun d => d.id)

instance (db : DB) : Decidable (RefIntegrity db) := by
  unfold RefIntegrity; infer_instance

/-- Projection from a sqlite result document to the D1 result shape. -/
def toD1Fields (s : SearchDocument) : D1SearchDocument :=
  { id := s.id, tenant := s.tenant, index := s.index, data := s.data
    createdAt := s.createdAt, updatedAt := s.updatedAt }

/-! ### Lemmas about the ordering and limit helpers -/

theorem insertByUpdatedDesc_perm (r : DocRow) (l : List DocRow) :
    List.Perm (insertByUpdatedDesc r l) (r :: l) := by
  induction l with
  | nil => simp [insertByUpdatedDesc]
  | cons x xs ih =>
    unfold insertByUpdatedDesc
    by_cases h : r.updated_at < x.updated_at
    · simp only [if_pos h]
      exact (List.Perm.cons x ih).trans (List.Perm.swap r x xs)
    · simp only [if_neg h]
      exact List.Perm.refl _

theorem sortByUpdatedDesc_perm (l : List DocRow) :
    List.Perm (sortByUpdatedDesc l) l := by
  induction l with
  | nil => simp [sortByUpdatedDesc]
  | cons x xs ih =>
    exact (insertByUpdatedDesc_perm x (sortByUpdatedDesc xs)).trans (List.Perm.cons x ih)

theorem mem_sortByUpdatedDesc {r : DocRow} {l : List DocRow} :
    r ∈ sortByUpdatedDesc l ↔ r ∈ l :=
  (sortByUpdatedDesc_perm l).mem_iff

theorem pairwise_insertByUpdatedDesc (r : DocRow) (l : List DocRow)
    (h : l.Pairwise (fun a b => b.updated_at ≤ a.updated_at)) :
    (insertByUpdatedDesc r l).Pairwise (fun a b => b.updated_at ≤ a.updated_at) := by
  induction l with
  | nil => simp [insertByUpdatedDesc]
  | cons x xs ih =>
    rcases List.pairwise_cons.mp h with ⟨hx, hxs⟩
    unfold insertByUpdatedDesc
    by_cases hlt : r.updated_at < x.updated_at
    · simp only [if_pos hlt]
      refine List.pairwise_cons.mpr ⟨?_, ih hxs⟩
      intro y hy
      rcases List.mem_cons.mp ((insertByUpdatedDesc_perm r xs).mem_iff.mp hy) with rfl | hy'
      · exact Nat.le_of_lt hlt
      · exact hx y hy'
    · simp only [if_neg hlt]
      refine List.pairwise_cons.mpr ⟨?_, h⟩
      intro y hy
      rcases List.mem_cons.mp hy with rfl | hy'
      · exact Nat.le_of_not_lt hlt
      · exact Nat.le_trans (hx y hy') (Nat.le_of_not_lt hlt)

theorem pairwise_sortByUpdatedDesc (l : List DocRow) :
    (sortByUpdatedDesc l).Pairwise (fun a b => b.updated_at ≤ a.updated_at) := by
  induction l with
  | nil => simp [sortByUpdatedDesc]
  | cons x xs ih => exact pairwise_insertByUpdatedDesc x (sortByUpdatedDesc xs) ih

theorem takeOpt_sublist (lim : Option Nat) (l : List α) :
    List.Sublist (takeOpt lim l) l := by
  cases lim with
  | none => exact List.Sublist.refl l
  | some n => exact List.take_sublist n l

theorem mem_takeOpt {a : α} {lim : Option Nat} {l : List α}
    (h : a ∈ takeOpt lim l) : a ∈ l :=
  (takeOpt_sublist lim l).subset h

theorem takeOpt_none (l : List α) : takeOpt none l = l := rfl

theorem mem_takeOpt_none {a : α} {l : List α} (h : a ∈ l) :
    a ∈ takeOpt none l := h

theorem length_takeOpt_le (n : Nat) (l : List α) :
    (takeOpt (some n) l).length ≤ n :=
  List.length_take_le n l

/-! ### Lemmas about the tag-diff machinery -/

/-- The removal set computed by the sqlite adapter filters the existing
tags against the set built from those same tags, so it is empty in every
state. -/
theorem sqliteTagsToRemove_eq_nil (db : DB) (docId : String) :
    sqliteTagsToRemove db docId = [] := by
  unfold sqliteTagsToRemove
  apply List.filter_eq_nil_iff.mpr
  intro e he
  simp only [Bool.not_eq_true']
  simpa using List.mem_map_of_mem (fun t => t.tag) he

theorem insertTagRows_ok {db : DB} {rows : List TagRow} {db' : DB}
    (h : insertTagRows db rows = Except.ok db') :
    db'.documents = db.documents ∧ db'.tags = db.tags ++ rows := by
  unfold insertTagRows at h
  split at h
  · cases h; exact ⟨rfl, rfl⟩
  · cases h

theorem insertTagRows_ok_of (db : DB) (rows : List TagRow)
    (h1 : rows.Nodup) (h2 : ∀ r ∈ rows, r ∉ db.tags) :
    insertTagRows db rows = Except.ok { db with tags := db.tags ++ rows } := by
  unfold insertTagRows
  rw [if_pos ⟨h1, h2⟩]

/-- No step of `applyTagDiff` touches the documents table, so the state
it returns carries the incoming documents unchanged — also when the
insert statement fails. -/
theorem applyTagDiff_documents (db : DB) (docId : String) (a : List String)
    (r : List TagRow) :
    (applyTagDiff db docId a r).1.documents = db.documents := by
  unfold applyTagDiff
  by_cases ha : a.length > 0
  · simp only [if_pos ha]
    cases hi : insertTagRows db (a.map (fun t =>
        ({ tag := t, search_document_id := docId } : TagRow))) with
    | error s => simp
    | ok dbi =>
      rcases insertTagRows_ok hi with ⟨hdocs, _⟩
      by_cases hr : r.length > 0 <;> simp [hr, hdocs]
  · simp only [if_neg ha]
    by_cases hr : r.length > 0 <;> simp [hr]

/-- Whether `applyTagDiff` fails, and with which error, depends only on
the insert batch, not on the removal set (the delete step never fails). -/
theorem applyTagDiff_status_indep (db : DB) (docId : String) (a : List String)
    (r r' : List TagRow) :
    (applyTagDiff db docId a r).2 = (applyTagDiff db docId a r').2 := by
  unfold applyTagDiff
  by_cases ha : a.length > 0
  · simp only [if_pos ha]
    cases hi : insertTagRows db (a.map (fun t =>
        ({ tag := t, search_document_id := docId } : TagRow))) with
    | error s => simp
    | ok dbi =>
      by_cases hr : r.length > 0 <;> by_cases hr' : r'.length > 0 <;>
        simp [hr, hr']
  · simp only [if_neg ha]
    by_cases hr : r.length > 0 <;> by_cases hr' : r'.length > 0 <;>
      simp [hr, hr']

/-- With an empty removal set, `applyTagDiff` only ever adds tag rows,
also when the insert statement fails (it then commits nothing). -/
theorem applyTagDiff_nil_tags_subset (db : DB) (docId : String)
    (a : List String) :
    db.tags ⊆ (applyTagDiff db docId a []).1.tags := by
  unfold applyTagDiff
  by_cases ha : a.length > 0
  · simp only [if_pos ha]
    cases hi : insertTagRows db (a.map (fun t =>
        ({ tag := t, search_document_id := docId } : TagRow))) with
    | error s =>
      simp only []
      exact fun x hx => hx
    | ok dbi =>
      simp only [List.length_nil, gt_iff_lt, Nat.lt_irrefl, if_false]
      rw [(insertTagRows_ok hi).2]
      exact List.subset_append_left _ _
  · simp only [if_neg ha, List.length_nil, gt_iff_lt, Nat.lt_irrefl, if_false]
    exact fun x hx => hx

/-! ### The HAVING-clause count -/

/-- Under the schema's unique tag index and for a duplicate-free query
list, the per-document match count reaches the query list's length
exactly when every queried tag is stored for the document. -/
theorem matchCount_eq_length_iff (db : DB) (tags : List String) (docId : String)
    (hdb : db.tags.Nodup) (ht : tags.Nodup) :
    matchCount db tags docId = tags.length ↔
      ∀ t ∈ tags, TagRow.mk t docId ∈ db.tags := by
  unfold matchCount
  have hFprop : ∀ x ∈ db.tags.filter (fun t =>
      t.search_document_id == docId && tags.contains t.tag),
      x.search_document_id = docId ∧ x.tag ∈ tags := by
    intro x hx
    have := List.of_mem_filter hx
    simpa using this
  have hFnd : (db.tags.filter (fun t =>
      t.search_document_id == docId && tags.contains t.tag)).Nodup :=
    hdb.filter _
  have hMnd : ((db.tags.filter (fun t =>
      t.search_document_id == docId && tags.contains t.tag)).map
      (fun t => t.tag)).Nodup := by
    refine hFnd.map_on ?_
    intro x hx y hy hxy
    have hx' := (hFprop x hx).1
    have hy' := (hFprop y hy).1
    cases x; cases y
    simp_all
  have hMsub : ((db.tags.filter (fun t =>
      t.search_document_id == docId && tags.contains t.tag)).map
      (fun t => t.tag)) ⊆ tags := by
    intro t htm
    rcases List.mem_map.mp htm with ⟨x, hx, rfl⟩
    exact (hFprop x hx).2
  have hsp : List.Subperm ((db.tags.filter (fun t =>
      t.search_document_id == docId && tags.contains t.tag)).map
      (fun t => t.tag)) tags :=
    List.subperm_of_subset hMnd hMsub
  constructor
  · intro hlen
    have hlen' : tags.length ≤ ((db.tags.filter (fun t =>
        t.search_document_id == docId && tags.contains t.tag)).map
        (fun t => t.tag)).length := by
      simpa using Nat.le_of_eq hlen.symm
    have hperm := hsp.perm_of_length_le hlen'
    intro t htt
    have htm : t ∈ (db.tags.filter (fun t =>
        t.search_document_id == docId && tags.contains t.tag)).map
        (fun t => t.tag) := hperm.mem_iff.mpr htt
    rcases List.mem_map.mp htm with ⟨x, hx, rfl⟩
    have h1 := (hFprop x hx).1
    have h2 : x = TagRow.mk x.tag docId := by
      cases x; simp_all
    rw [← h2]
    exact List.mem_of_mem_filter hx
  · intro hall
    have hsub2 : tags ⊆ (db.tags.filter (fun t =>
        t.search_document_id == docId && tags.contains t.tag)).map
        (fun t => t.tag) := by
      intro t htt
      refine List.mem_map.mpr ⟨TagRow.mk t docId, ?_, rfl⟩
      refine List.mem_filter.mpr ⟨hall t htt, ?_⟩
      simp [htt]
    have hsp2 := List.subperm_of_subset ht hsub2
    have hle1 := hsp.length_le
    have hle2 := hsp2.length_le
    have : ((db.tags.filter (fun t =>
        t.search_document_id == docId && tags.contains t.tag)).map
        (fun t => t.tag)).length = tags.length := Nat.le_antisymm hle1 hle2
    simpa using this

/-! ### Uniqueness of id and `find?` -/

/-- Under a duplicate-free id column, `find?` by id returns exactly the
stored row carrying that id. -/
theorem find?_id_eq_some {l : List DocRow}
    (h : (l.map (fun d => d.id)).Nodup) {r : DocRow} (hr : r ∈ l)
    {id : String} (hid : r.id = id) :
    l.find? (fun d => d.id == id) = some r := by
  induction l with
  | nil => cases hr
  | cons x xs ih =>
    simp only [List.map_cons, List.nodup_cons] at h
    rcases List.mem_cons.mp hr with rfl | hr'
    · exact List.find?_cons_of_pos _ (by simp [hid])
    · have hx : ¬ x.id = id := by
        intro hEq
        apply h.1
        rw [hEq, ← hid]
        exact List.mem_map_of_mem (fun d => d.id) hr'
      rw [List.find?_cons_of_neg _ (by simp [hx])]
      exact ih h.2 hr'

/-- Two stored rows with the same id are the same row (the unique index
on `id`). -/
theorem eq_of_mem_of_id_eq {l : List DocRow}
    (h : (l.map (fun d => d.id)).Nodup) {r r' : DocRow}
    (hr : r ∈ l) (hr' : r' ∈ l) (hid : r.id = r'.id) : r = r' :=
  List.inj_on_of_nodup_map h hr hr' hid

/-- Under the unique id index, the update statement filtered on `id`
alone and the one filtered on `id`, `tenant` and `index` together touch
the same rows, given that the existence check found a matching row. -/
theorem updateById_eq_updateByTriple (db : DB) (document : UpsertBody) (now : Nat)
    (h : (db.documents.map (fun d => d.id)).Nodup) (e : DocRow)
    (he : db.documents.find? (fun d =>
      d.id == document.id && d.tenant == document.tenant &&
        d.index == document.index) = some e) :
    db.documents.map (fun d =>
      if d.id == document.id then { d with data := document.data, updated_at := now }
      else d) =
    db.documents.map (fun d =>
      if d.id == document.id && d.tenant == document.tenant &&
          d.index == document.index then
        { d with data := document.data, updated_at := now }
      else d) := by
  apply List.map_congr_left
  intro d hd
  by_cases hidd : d.id = document.id
  · have hme : e ∈ db.documents := List.mem_of_find?_eq_some he
    have hpe := List.find?_some he
    simp only [Bool.and_eq_true, beq_iff_eq] at hpe
    have hde : d = e :=
      eq_of_mem_of_id_eq h hd hme (by rw [hidd, hpe.1.1])
    subst hde
    simp [hidd, hpe.1.2, hpe.2]
  · simp [hidd]

/-! ### Query result decomposition -/

/-- Every listing query has the shape `map f (limit (sort (filter p)))`:
membership in the result comes from a stored row passing the filter. -/
theorem mem_query_shape {β : Type} {p : DocRow → Bool} {f : DocRow → β}
    {lim : Option Nat} {l : List DocRow} {s : β}
    (hs : s ∈ (takeOpt lim (sortByUpdatedDesc (l.filter p))).map f) :
    ∃ r ∈ l, p r = true ∧ s = f r := by
  rcases List.mem_map.mp hs with ⟨r, hr, rfl⟩
  have hmem := mem_sortByUpdatedDesc.mp (mem_takeOpt hr)
  rcases List.mem_filter.mp hmem with ⟨hrl, hp⟩
  exact ⟨r, hrl, hp, rfl⟩

/-! ### Effect of a successful document write -/

theorem insertDocRow_ok {db : DB} {row : DocRow} {db1 : DB}
    (h : insertDocRow db row = Except.ok db1) :
    db1.documents = db.documents ++ [row] ∧ db1.tags = db.tags := by
  unfold insertDocRow at h
  split at h
  · cases h
  · cases h; exact ⟨rfl, rfl⟩

theorem insertDocRow_ok_of (db : DB) (row : DocRow)
    (h : ∀ d ∈ db.documents, d.id ≠ row.id) :
    insertDocRow db row = Except.ok { db with documents := db.documents ++ [row] } := by
  unfold insertDocRow
  rw [if_neg]
  intro habs
  rcases List.any_eq_true.mp habs with ⟨d, hd, hdid⟩
  exact h d hd (by simpa using hdid)

/-- A successful sqlite document write leaves the tags table alone. -/
theorem sqliteDocWrite_ok_tags {db : DB} {document : UpsertBody} {now : Nat}
    {existing : Option DocRow} {db1 : DB}
    (h : sqliteDocWrite db document now existing = Except.ok db1) :
    db1.tags = db.tags := by
  unfold sqliteDocWrite at h
  cases existing with
  | none => exact (insertDocRow_ok h).2
  | some e => cases h; rfl

/-- The sqlite tag block only ever adds rows — its removal set is
always empty, and a failed insert commits nothing. -/
theorem sqliteTagWrite_tags_subset (db1 : DB) (docId : String)
    (tags : List String) :
    db1.tags ⊆ (sqliteTagWrite db1 docId tags).1.tags := by
  unfold sqliteTagWrite
  by_cases htl : tags.length > 0
  · rw [if_pos htl, sqliteTagsToRemove_eq_nil]
    exact applyTagDiff_nil_tags_subset db1 docId _
  · rw [if_neg htl]
    exact fun a ha => ha

/-- No tag block touches the documents table. -/
theorem sqliteTagWrite_documents (db1 : DB) (docId : String)
    (tags : List String) :
    (sqliteTagWrite db1 docId tags).1.documents = db1.documents := by
  unfold sqliteTagWrite
  by_cases htl : tags.length > 0
  · rw [if_pos htl]
    exact applyTagDiff_documents db1 docId _ _
  · rw [if_neg htl]

theorem d1TagWrite_documents (db1 : DB) (docId : String)
    (tags : List String) :
    (d1TagWrite db1 docId tags).1.documents = db1.documents := by
  unfold d1TagWrite
  by_cases htl : tags.length > 0
  · rw [if_pos htl]
    exact applyTagDiff_documents db1 docId _ _
  · rw [if_neg htl]

/-- The sqlite upsert only ever adds tag rows, also when it fails. -/
theorem sqliteUpsert_tags_subset (db : DB) (document : UpsertBody)
    (tags : List String) (now : Nat) :
    db.tags ⊆ (sqliteUpsertDocument db document tags now).1.tags := by
  unfold sqliteUpsertDocument
  cases h1 : sqliteDocWrite db document now (findExisting db document) with
  | error s =>
    simp only []
    exact fun a ha => ha
  | ok db1 =>
    simp only []
    have hsub := sqliteTagWrite_tags_subset db1 document.id tags
    rw [sqliteDocWrite_ok_tags h1] at hsub
    cases h2 : sqliteTagWrite db1 document.id tags with
    | mk db2 st =>
      rw [h2] at hsub
      cases st <;> simpa using hsub

theorem runSqliteUpserts_tags_subset (db : DB) (calls : List UpsertCall) :
    db.tags ⊆ (runSqliteUpserts db calls).tags := by
  induction calls generalizing db with
  | nil => exact fun a ha => ha
  | cons c cs ih =>
    unfold runSqliteUpserts
    exact List.Subset.trans
      (sqliteUpsert_tags_subset db c.document c.tags c.now) (ih _)

/-! ### Claim theorems -/

/-- Claim C8: every document returned by `getDocuments` or
`getDocumentsByTags` — in either adapter — carries the requested tenant,
so a document of tenant A never appears in results requested for a
different tenant B. -/
theorem C8_tenant_isolation (db : DB) (tenant : String) (io : Option String)
    (lim : Option Nat) (tags : List String) :
    (∀ s ∈ sqliteGetDocuments db ⟨tenant, io, lim⟩, s.tenant = tenant) ∧
    (∀ s ∈ sqliteGetDocumentsByTags db tags ⟨tenant, io, lim⟩, s.tenant = tenant) ∧
    (∀ s ∈ d1GetDocuments db ⟨tenant, io, lim⟩, s.tenant = tenant) ∧
    (∀ s ∈ d1GetDocumentsByTags db tags ⟨tenant, io, lim⟩, s.tenant = tenant) := by
  refine ⟨?_, ?_, ?_, ?_⟩
  · intro s hs
    rcases mem_query_shape hs with ⟨r, _, hp, rfl⟩
    simp only [Bool.and_eq_true, beq_iff_eq] at hp
    exact hp.1
  · intro s hs
    rcases mem_query_shape (p := fun d =>
        d.tenant == tenant && indexMatches io d.index &&
        matchCount db tags d.id == tags.length &&
        decide (0 < matchCount db tags d.id)) hs with ⟨r, _, hp, rfl⟩
    simp only [Bool.and_eq_true, beq_iff_eq] at hp
    exact hp.1.1.1
  · intro s hs
    rcases mem_query_shape hs with ⟨r, _, hp, rfl⟩
    simp only [Bool.and_eq_true, beq_iff_eq] at hp
    exact hp.1
  · intro s hs
    rcases mem_query_shape (p := fun d =>
        d.tenant == tenant && indexMatches io d.index &&
        matchCount db tags d.id == tags.length &&
        decide (0 < matchCount db tags d.id)) hs with ⟨r, _, hp, rfl⟩
    simp only [Bool.and_eq_true, beq_iff_eq] at hp
    exact hp.1.1.1

/-- Claim C10: the sqlite adapter's computed removal set is empty in every
state, and across any sequence of upsert calls the stored tag rows only
grow. -/
theorem C10_upsert_never_removes_tags (db : DB) (docId : String)
    (calls : List UpsertCall) :
    sqliteTagsToRemove db docId = [] ∧
    db.tags ⊆ (runSqliteUpserts db calls).tags :=
  ⟨sqliteTagsToRemove_eq_nil db docId, runSqliteUpserts_tags_subset db calls⟩

/-- Claim C7: after `deleteDocument(id)`, `getDocument(id)` reports not-found
and no tag row references `id`, in both adapters; and deleting an id for
which no document exists (under referential integrity, so no tag row
references it either) is an error-free no-op. -/
theorem C7_delete_completeness (db : DB) (id : String) (db₂ : DB) (id₂ : String)
    (hri : RefIntegrity db₂)
    (hmiss : id₂ ∉ db₂.documents.map (fun d => d.id)) :
    sqliteGetDocument (sqliteDeleteDocument db id) id = none ∧
    (∀ t ∈ (sqliteDeleteDocument db id).tags, t.search_document_id ≠ id) ∧
    d1GetDocument (d1DeleteDocument db id) id = none ∧
    (∀ t ∈ (d1DeleteDocument db id).tags, t.search_document_id ≠ id) ∧
    sqliteDeleteDocument db₂ id₂ = db₂ ∧
    d1DeleteDocument db₂ id₂ = db₂ := by
  have hfind : (db.documents.filter (fun d => !(d.id == id))).find?
      (fun d => d.id == id) = none := by
    apply List.find?_eq_none.mpr
    intro d hd
    have := (List.mem_filter.mp hd).2
    simpa using this
  have htag : ∀ t ∈ db.tags.filter (fun t => !(t.search_document_id == id)),
      t.search_document_id ≠ id := by
    intro t ht
    have := (List.mem_filter.mp ht).2
    simpa using this
  have hnoop : db₂.documents.filter (fun d => !(d.id == id₂)) = db₂.documents := by
    apply List.filter_eq_self.mpr
    intro d hd
    simp only [Bool.not_eq_true', beq_eq_false_iff_ne, ne_eq]
    intro habs
    exact hmiss (habs ▸ List.mem_map_of_mem (fun d => d.id) hd)
  have hnooptags : db₂.tags.filter (fun t => !(t.search_document_id == id₂)) =
      db₂.tags := by
    apply List.filter_eq_self.mpr
    intro t ht
    simp only [Bool.not_eq_true', beq_eq_false_iff_ne, ne_eq]
    intro habs
    exact hmiss (habs ▸ hri t ht)
  refine ⟨?_, htag, ?_, htag, ?_, ?_⟩
  · simp [sqliteGetDocument, sqliteDeleteDocument, hfind]
  · simp [d1GetDocument, d1DeleteDocument, hfind]
  · cases db₂ with
    | mk docs tgs => simp_all [sqliteDeleteDocument]
  · cases db₂ with
    | mk docs tgs => simp_all [d1DeleteDocument]

/-- Claim C9: `getDocument` and `deleteDocument` filter on `id` alone, so a
stored row is returned, and removed, whatever its tenant and index are. -/
theorem C9_id_only_access (db : DB) (r : DocRow) (id : String)
    (h : WF db) (hr : r ∈ db.documents) (hid : r.id = id) :
    sqliteGetDocument db id = some (formatDocument db r) ∧
    d1GetDocument db id = some (d1FormatDocument r) ∧
    (∀ d ∈ (sqliteDeleteDocument db id).documents, d.id ≠ id) ∧
    (∀ d ∈ (d1DeleteDocument db id).documents, d.id ≠ id) := by
  have hf := find?_id_eq_some h.1 hr hid
  have hdel : ∀ d ∈ db.documents.filter (fun d => !(d.id == id)), d.id ≠ id := by
    intro d hd
    have := (List.mem_filter.mp hd).2
    simpa using this
  exact ⟨by simp [sqliteGetDocument, hf], by simp [d1GetDocument, hf], hdel, hdel⟩

/-- Claim C5: when a document with the same id already exists under a
different tenant or index, the existence check (which matches id, tenant
and index together) finds nothing, so the upsert attempts an insert and
surfaces the unique-id-index violation as an error. -/
theorem C5_global_id_conflict (db : DB) (r : DocRow) (document : UpsertBody)
    (tags : List String) (now : Nat)
    (h : WF db) (hr : r ∈ db.documents) (hid : r.id = document.id)
    (hdiff : r.tenant ≠ document.tenant ∨ r.index ≠ document.index) :
    findExisting db document = none ∧
    sqliteUpsertDocument db document tags now = (db, Except.error uniqueViolation) ∧
    d1IndexDocument db document tags now = (db, Except.error uniqueViolation) := by
  have hnone : findExisting db document = none := by
    unfold findExisting
    apply List.find?_eq_none.mpr
    intro d hd
    simp only [Bool.and_eq_true, beq_iff_eq, not_and]
    intro hdid hidx
    have hde : d = r := eq_of_mem_of_id_eq h.1 hd hr (by rw [hdid.1, hid])
    rcases hdiff with hd1 | hd1
    · exact hd1 (hde ▸ hdid.2)
    · exact hd1 (hde ▸ hidx)
  have hins : insertDocRow db
      { id := document.id, tenant := document.tenant, index := document.index
        data := document.data, created_at := now, updated_at := now } =
      Except.error uniqueViolation := by
    unfold insertDocRow
    rw [if_pos]
    apply List.any_eq_true.mpr
    exact ⟨r, hr, by simpa using hid⟩
  refine ⟨hnone, ?_, ?_⟩
  · unfold sqliteUpsertDocument
    rw [hnone]
    unfold sqliteDocWrite
    rw [hins]
  · unfold d1IndexDocument
    rw [hnone]
    unfold d1DocWrite
    rw [hins]

/-- Ordering of any query of shape `map f (limit (sort (filter p)))`:
descending in `updated_at`. -/
theorem pairwise_query_shape {β : Type} (f : DocRow → β) (key : β → Nat)
    (hkey : ∀ r, key (f r) = r.updated_at) (lim : Option Nat) (l : List DocRow) :
    ((takeOpt lim (sortByUpdatedDesc l)).map f).Pairwise
      (fun a b => key b ≤ key a) := by
  refine List.pairwise_map.mpr ?_
  have hp := (pairwise_sortByUpdatedDesc l).sublist (takeOpt_sublist lim _)
  exact hp.imp (fun hab => by rw [hkey, hkey]; exact hab)

theorem length_query_le {β : Type} (f : DocRow → β) (n : Nat) (l : List DocRow) :
    ((takeOpt (some n) (sortByUpdatedDesc l)).map f).length ≤ n := by
  rw [List.length_map]
  exact length_takeOpt_le n _

/-- The state for the C6 counterexample: two documents of one tenant
with equal `updated_at`, stored with the lexicographically larger id
first. -/
def dbC6 : DB :=
  { documents := [⟨"b", "t", "i", "p", 0, 5⟩, ⟨"a", "t", "i", "p", 0, 5⟩]
    tags := [] }

/-- Counterexample to claim C6: both stored rows share `updated_at = 5`, and
`"a" < "b"`, so the claimed id-ascending tie-break requires the order
`["a", "b"]`; both adapters return `["b", "a"]` (there is no id
tie-break in the ORDER BY). -/
theorem C6_counterexample :
    ((sqliteGetDocuments dbC6 ⟨"t", none, none⟩).map (fun s => s.id) = ["b", "a"] ∧
     (d1GetDocuments dbC6 ⟨"t", none, none⟩).map (fun s => s.id) = ["b", "a"] ∧
     (∀ s ∈ sqliteGetDocuments dbC6 ⟨"t", none, none⟩, s.updatedAt = 5) ∧
     ("a" : String) < "b") ∧
    (sqliteGetDocuments dbC6 ⟨"t", none, none⟩).map (fun s => s.id) ≠ ["a", "b"] :=
  ⟨⟨by decide, by decide, by decide, String.lt_iff_toList_lt.mpr (by decide)⟩,
    by decide⟩

/-- Claim C6 as amended: the results of `getDocuments` and `getDocumentsByTags`
in both adapters are ordered by `updated_at` descending — there is no id
tie-break, so rows with equal timestamps stay in table order — and a
supplied limit caps the number of results. -/
theorem C6_order_and_limit (db : DB) (tenant : String) (io : Option String)
    (lim : Option Nat) (tags : List String) (n : Nat) :
    (sqliteGetDocuments db ⟨tenant, io, lim⟩).Pairwise
      (fun a b => b.updatedAt ≤ a.updatedAt) ∧
    (sqliteGetDocumentsByTags db tags ⟨tenant, io, lim⟩).Pairwise
      (fun a b => b.updatedAt ≤ a.updatedAt) ∧
    (d1GetDocuments db ⟨tenant, io, lim⟩).Pairwise
      (fun a b => b.updatedAt ≤ a.updatedAt) ∧
    (d1GetDocumentsByTags db tags ⟨tenant, io, lim⟩).Pairwise
      (fun a b => b.updatedAt ≤ a.updatedAt) ∧
    (sqliteGetDocuments db ⟨tenant, io, some n⟩).length ≤ n ∧
    (sqliteGetDocumentsByTags db tags ⟨tenant, io, some n⟩).length ≤ n ∧
    (d1GetDocuments db ⟨tenant, io, some n⟩).length ≤ n ∧
    (d1GetDocumentsByTags db tags ⟨tenant, io, some n⟩).length ≤ n :=
  ⟨pairwise_query_shape (formatDocument db) (fun s => s.updatedAt)
      (fun _ => rfl) lim _,
   pairwise_query_shape (formatMatched db tags) (fun s => s.updatedAt)
      (fun _ => rfl) lim _,
   pairwise_query_shape d1FormatDocument (fun s => s.updatedAt)
      (fun _ => rfl) lim _,
   pairwise_query_shape d1FormatDocument (fun s => s.updatedAt)
      (fun _ => rfl) lim _,
   length_query_le (formatDocument db) n _,
   length_query_le (formatMatched db tags) n _,
   length_query_le d1FormatDocument n _,
   length_query_le d1FormatDocument n _⟩

/-- Membership in the row set selected by `getDocumentsByTags` (shared
by both adapters), under the schema's unique tag index and for a
duplicate-free query list. -/
theorem mem_byTagsRows_iff (db : DB) (tags : List String) (tenant : String)
    (io : Option String) (lim : Option Nat) (r : DocRow)
    (hdb : db.tags.Nodup) (ht : tags.Nodup) :
    r ∈ byTagsRows db tags ⟨tenant, io, lim⟩ ↔
      (r ∈ db.documents ∧ r.tenant = tenant ∧ indexMatches io r.index = true ∧
        tags ≠ [] ∧ ∀ t ∈ tags, TagRow.mk t r.id ∈ db.tags) := by
  unfold byTagsRows
  rw [List.mem_filter]
  simp only [Bool.and_eq_true, beq_iff_eq, decide_eq_true_eq]
  constructor
  · rintro ⟨hmem, ⟨⟨⟨hten, hidx⟩, hcount⟩, hpos⟩⟩
    have hc : matchCount db tags r.id = tags.length := by simpa using hcount
    refine ⟨hmem, hten, hidx, ?_,
      (matchCount_eq_length_iff db tags r.id hdb ht).mp hc⟩
    exact List.length_pos.mp (hc ▸ hpos)
  · rintro ⟨hmem, hten, hidx, hne, hall⟩
    have hc : matchCount db tags r.id = tags.length :=
      (matchCount_eq_length_iff db tags r.id hdb ht).mpr hall
    have hpos : 0 < matchCount db tags r.id := by
      rw [hc]
      exact List.length_pos.mpr hne
    exact ⟨hmem, ⟨⟨⟨hten, hidx⟩, by simpa using hc⟩, hpos⟩⟩

/-- The state for the C2 counterexample: one document of tenant t1
carrying the tag x. -/
def dbC2 : DB :=
  { documents := [⟨"d1", "t1", "i1", "p", 1, 1⟩], tags := [⟨"x", "d1"⟩] }

/-- Counterexample to claim C2: for the input list ["x", "x"] the distinct input
tags are just {x}, and document d1's stored tag set contains x — so the
claim requires d1 in the result — yet both adapters return nothing (the
HAVING clause compares the match count against the raw list length 2). -/
theorem C2_counterexample :
    sqliteGetDocumentsByTags dbC2 ["x", "x"] ⟨"t1", none, none⟩ = [] ∧
    d1GetDocumentsByTags dbC2 ["x", "x"] ⟨"t1", none, none⟩ = [] ∧
    (∀ t ∈ ["x", "x"], TagRow.mk t "d1" ∈ dbC2.tags) ∧
    dbC2.documents = [⟨"d1", "t1", "i1", "p", 1, 1⟩] := by decide

/-- Claim C2 as amended: for a duplicate-free input tag list,
`getDocumentsByTags` (without a limit) returns, in either adapter,
exactly the formatted documents of the requested tenant (and optional
index) whose stored tag set contains every input tag, and a non-empty
result requires a non-empty input list — the empty list returns no
documents.  (With duplicates in the input list the HAVING clause
compares against the raw list length and can never be reached, see the
counterexample.) -/
theorem C2_intersection_semantics (db : DB) (tags : List String)
    (tenant : String) (io : Option String) (s : SearchDocument)
    (s' : D1SearchDocument) (hdb : db.tags.Nodup) (ht : tags.Nodup) :
    (s ∈ sqliteGetDocumentsByTags db tags ⟨tenant, io, none⟩ ↔
      ∃ r, r ∈ db.documents ∧ r.tenant = tenant ∧
        indexMatches io r.index = true ∧ tags ≠ [] ∧
        (∀ t ∈ tags, TagRow.mk t r.id ∈ db.tags) ∧
        s = formatMatched db tags r) ∧
    (s' ∈ d1GetDocumentsByTags db tags ⟨tenant, io, none⟩ ↔
      ∃ r, r ∈ db.documents ∧ r.tenant = tenant ∧
        indexMatches io r.index = true ∧ tags ≠ [] ∧
        (∀ t ∈ tags, TagRow.mk t r.id ∈ db.tags) ∧
        s' = d1FormatDocument r) := by
  constructor
  · unfold sqliteGetDocumentsByTags
    constructor
    · intro hs
      rcases List.mem_map.mp hs with ⟨r, hr, rfl⟩
      have hrows := mem_sortByUpdatedDesc.mp (mem_takeOpt hr)
      rcases (mem_byTagsRows_iff db tags tenant io none r hdb ht).mp hrows with
        ⟨h1, h2, h3, h4, h5⟩
      exact ⟨r, h1, h2, h3, h4, h5, rfl⟩
    · rintro ⟨r, h1, h2, h3, h4, h5, rfl⟩
      refine List.mem_map_of_mem _ ?_
      refine mem_takeOpt_none ?_
      exact mem_sortByUpdatedDesc.mpr
        ((mem_byTagsRows_iff db tags tenant io none r hdb ht).mpr
          ⟨h1, h2, h3, h4, h5⟩)
  · unfold d1GetDocumentsByTags
    constructor
    · intro hs
      rcases List.mem_map.mp hs with ⟨r, hr, rfl⟩
      have hrows := mem_sortByUpdatedDesc.mp (mem_takeOpt hr)
      rcases (mem_byTagsRows_iff db tags tenant io none r hdb ht).mp hrows with
        ⟨h1, h2, h3, h4, h5⟩
      exact ⟨r, h1, h2, h3, h4, h5, rfl⟩
    · rintro ⟨r, h1, h2, h3, h4, h5, rfl⟩
      refine List.mem_map_of_mem _ ?_
      refine mem_takeOpt_none ?_
      exact mem_sortByUpdatedDesc.mpr
        ((mem_byTagsRows_iff db tags tenant io none r hdb ht).mpr
          ⟨h1, h2, h3, h4, h5⟩)

/-- The row-level frame property of the update branch of the upsert:
id, tenant, index and created_at are preserved on every row; rows with a
different id are untouched; the rows carrying the written id get the new
data and updated_at. -/
def updateFrame (document : UpsertBody) (now : Nat) (r r' : DocRow) : Prop :=
  r'.id = r.id ∧ r'.tenant = r.tenant ∧ r'.index = r.index ∧
  r'.created_at = r.created_at ∧
  (r.id ≠ document.id → r' = r) ∧
  (r.id = document.id → r'.data = document.data ∧ r'.updated_at = now)

/-- The state for the C4 counterexample: a document with id "a" under
tenant t1. -/
def dbC4 : DB := { documents := [⟨"a", "t1", "i1", "p", 1, 1⟩], tags := [] }

/-- The C4 counterexample call: the same id under a different tenant. -/
def docC4 : UpsertBody := ⟨"a", "t2", "i1", "q"⟩

/-- Counterexample to claim C4: no row matches (id, tenant, index), so by the
claim a new row should be inserted — instead both adapters surface the
unique-id violation and insert nothing. -/
theorem C4_counterexample :
    findExisting dbC4 docC4 = none ∧
    sqliteUpsertDocument dbC4 docC4 [] 5 = (dbC4, Except.error uniqueViolation) ∧
    d1IndexDocument dbC4 docC4 [] 5 = (dbC4, Except.error uniqueViolation) := by decide

/-- Claim C4 as amended: (1) when no row matches (id, tenant, index)
*and no stored row carries the id at all*, the upsert appends exactly
one row with `created_at = updated_at = now` (whatever the later tag
statements do); (2) when a row matches the triple, the resulting
document table is the stored one with `data`/`updated_at` rewritten on
the rows carrying the id, and every row satisfies the frame property
(id, tenant, index, created_at untouched; other rows unchanged). -/
theorem C4_upsert_row_effects
    (db₁ : DB) (document₁ : UpsertBody) (tags₁ : List String) (now₁ : Nat)
    (db₂ : DB) (document₂ : UpsertBody) (tags₂ : List String) (now₂ : Nat)
    (e : DocRow)
    (hnone : findExisting db₁ document₁ = none)
    (hid : ∀ r ∈ db₁.documents, r.id ≠ document₁.id)
    (hsome : findExisting db₂ document₂ = some e) :
    ((sqliteUpsertDocument db₁ document₁ tags₁ now₁).1.documents =
      db₁.documents ++
        [⟨document₁.id, document₁.tenant, document₁.index, document₁.data,
          now₁, now₁⟩]) ∧
    ((sqliteUpsertDocument db₂ document₂ tags₂ now₂).1.documents =
      db₂.documents.map (fun d =>
        if d.id == document₂.id then
          { d with data := document₂.data, updated_at := now₂ }
        else d)) ∧
    List.Forall₂ (updateFrame document₂ now₂) db₂.documents
      (db₂.documents.map (fun d =>
        if d.id == document₂.id then
          { d with data := document₂.data, updated_at := now₂ }
        else d)) := by
  refine ⟨?_, ?_, ?_⟩
  · unfold sqliteUpsertDocument
    rw [hnone]
    unfold sqliteDocWrite
    rw [insertDocRow_ok_of db₁ _ (by simpa using hid)]
    simp only []
    cases h2 : sqliteTagWrite
        { db₁ with documents := db₁.documents ++
          [{ id := document₁.id, tenant := document₁.tenant
             index := document₁.index, data := document₁.data
             created_at := now₁, updated_at := now₁ }] }
        document₁.id tags₁ with
    | mk db2 st =>
      have hdocs := sqliteTagWrite_documents
        { db₁ with documents := db₁.documents ++
          [{ id := document₁.id, tenant := document₁.tenant
             index := document₁.index, data := document₁.data
             created_at := now₁, updated_at := now₁ }] }
        document₁.id tags₁
      rw [h2] at hdocs
      cases st <;> simpa using hdocs
  · unfold sqliteUpsertDocument
    rw [hsome]
    unfold sqliteDocWrite
    simp only []
    cases h2 : sqliteTagWrite
        { db₂ with documents := db₂.documents.map (fun d =>
          if d.id == document₂.id then
            { d with data := document₂.data, updated_at := now₂ }
          else d) }
        document₂.id tags₂ with
    | mk db2 st =>
      have hdocs := sqliteTagWrite_documents
        { db₂ with documents := db₂.documents.map (fun d =>
          if d.id == document₂.id then
            { d with data := document₂.data, updated_at := now₂ }
          else d) }
        document₂.id tags₂
      rw [h2] at hdocs
      cases st <;> simpa using hdocs
  · rw [List.forall₂_map_right_iff]
    refine List.forall₂_same.mpr ?_
    intro d hd
    by_cases hidd : d.id = document₂.id
    · have hcond : (d.id == document₂.id) = true := beq_iff_eq.mpr hidd
      simp only [hcond, if_true]
      exact ⟨rfl, rfl, rfl, rfl, fun hne => absurd hidd hne, fun _ => ⟨rfl, rfl⟩⟩
    · have hcond : (d.id == document₂.id) = false := by
        simpa using hidd
      simp only [hcond, if_false]
      exact ⟨rfl, rfl, rfl, rfl, fun _ => rfl, fun heq => absurd heq hidd⟩

/-- Under the unique id index, the two adapters' document-row writes
agree (the d1 update filters on the full triple, the sqlite one on id
alone, but the matched row is the same). -/
theorem d1DocWrite_eq_sqlite (db : DB) (document : UpsertBody) (now : Nat)
    (h : (db.documents.map (fun d => d.id)).Nodup) :
    d1DocWrite db document now (findExisting db document) =
    sqliteDocWrite db document now (findExisting db document) := by
  unfold d1DocWrite sqliteDocWrite
  cases hf : findExisting db document with
  | none => rfl
  | some e =>
    simp only []
    rw [← updateById_eq_updateByTriple db document now h e hf]

/-- The two adapters' tag blocks fail in the same way (only the insert
step can fail, and both compute the same batch); they differ only in
which tag rows get removed. -/
theorem tagWrite_status_eq (db1 : DB) (docId : String)
    (tags : List String) :
    (sqliteTagWrite db1 docId tags).2 = (d1TagWrite db1 docId tags).2 := by
  unfold sqliteTagWrite d1TagWrite
  by_cases htl : tags.length > 0
  · rw [if_pos htl, if_pos htl]
    exact applyTagDiff_status_indep db1 docId _ _ _
  · rw [if_neg htl, if_neg htl]

/-- The upserts of both adapters produce the same documents table —
also when a tag-stage failure occurs. -/
theorem upsert_documents_eq (db : DB) (document : UpsertBody)
    (tags : List String) (now : Nat)
    (h : (db.documents.map (fun d => d.id)).Nodup) :
    (sqliteUpsertDocument db document tags now).1.documents =
    (d1IndexDocument db document tags now).1.documents := by
  unfold sqliteUpsertDocument d1IndexDocument
  rw [d1DocWrite_eq_sqlite db document now h]
  cases h1 : sqliteDocWrite db document now (findExisting db document) with
  | error s => simp only []
  | ok db1 =>
    simp only []
    have hds := sqliteTagWrite_documents db1 document.id tags
    have hdd := d1TagWrite_documents db1 document.id tags
    cases h2 : sqliteTagWrite db1 document.id tags with
    | mk db2 st =>
      cases h2' : d1TagWrite db1 document.id tags with
      | mk db2' st' =>
        rw [h2] at hds
        rw [h2'] at hdd
        simp only [] at hds hdd
        cases st <;> cases st' <;> simp only [] <;> rw [hds, hdd]

/-- The upserts of both adapters succeed together or fail together with
the same error. -/
theorem upsert_status_eq (db : DB) (document : UpsertBody)
    (tags : List String) (now : Nat)
    (h : (db.documents.map (fun d => d.id)).Nodup) :
    (sqliteUpsertDocument db document tags now).2.map (fun _ => ()) =
    (d1IndexDocument db document tags now).2.map (fun _ => ()) := by
  unfold sqliteUpsertDocument d1IndexDocument
  rw [d1DocWrite_eq_sqlite db document now h]
  cases h1 : sqliteDocWrite db document now (findExisting db document) with
  | error s => rfl
  | ok db1 =>
    simp only []
    have hst := tagWrite_status_eq db1 document.id tags
    cases h2 : sqliteTagWrite db1 document.id tags with
    | mk db2 st =>
      cases h2' : d1TagWrite db1 document.id tags with
      | mk db2' st' =>
        rw [h2, h2'] at hst
        simp only [] at hst
        subst hst
        cases st <;> simp [Except.map]

/-- The state for the C3 counterexample: a document carrying the stored
tag "old". -/
def dbC3 : DB :=
  { documents := [⟨"doc1", "ten", "idx", "p", 1, 1⟩], tags := [⟨"old", "doc1"⟩] }

/-- The C3 counterexample call: re-index the same document with the
single tag "new". -/
def docC3 : UpsertBody := ⟨"doc1", "ten", "idx", "q"⟩

/-- Counterexample to claim C3: from the same state and with the same arguments,
the sqlite upsert keeps the stale tag row while the D1 one removes it,
so the two adapters do not have identical observable semantics. -/
theorem C3_counterexample :
    (sqliteUpsertDocument dbC3 docC3 ["new"] 7).1.tags =
      [⟨"old", "doc1"⟩, ⟨"new", "doc1"⟩] ∧
    (d1IndexDocument dbC3 docC3 ["new"] 7).1.tags = [⟨"new", "doc1"⟩] ∧
    ¬ ((sqliteUpsertDocument dbC3 docC3 ["new"] 7).1.tags =
       (d1IndexDocument dbC3 docC3 ["new"] 7).1.tags) := by
  decide

/-- Claim C3 as amended: under the unique id index, the two adapters agree on
every read (up to the `tags` field only the sqlite results carry), on
deletion, on the tag vocabulary, and on the documents table produced by
an upsert; only the stored tag rows after an upsert can differ (the
sqlite adapter never removes tag rows, the D1 one removes the stale
ones — see the counterexample). -/
theorem C3_adapters_agree (db : DB) (id : String)
    (options : GetDocumentsOptions) (tags : List String)
    (document : UpsertBody) (now : Nat) (h : WF db) :
    ((sqliteGetDocument db id).map toD1Fields = d1GetDocument db id) ∧
    ((sqliteGetDocuments db options).map toD1Fields = d1GetDocuments db options) ∧
    ((sqliteGetDocumentsByTags db tags options).map toD1Fields =
      d1GetDocumentsByTags db tags options) ∧
    (sqliteDeleteDocument db id = d1DeleteDocument db id) ∧
    (sqliteGetTags db = d1GetTags db) ∧
    ((sqliteUpsertDocument db document tags now).1.documents =
      (d1IndexDocument db document tags now).1.documents) ∧
    ((sqliteUpsertDocument db document tags now).2.map (fun _ => ()) =
      (d1IndexDocument db document tags now).2.map (fun _ => ())) := by
  refine ⟨?_, ?_, ?_, rfl, rfl, upsert_documents_eq db document tags now h.1,
    upsert_status_eq db document tags now h.1⟩
  · unfold sqliteGetDocument d1GetDocument
    cases hf : db.documents.find? (fun d => d.id == id) <;>
      simp [toD1Fields, formatDocument, d1FormatDocument]
  · simp only [sqliteGetDocuments, d1GetDocuments]
    rw [List.map_map]
    exact List.map_congr_left (fun d hd => rfl)
  · simp only [sqliteGetDocumentsByTags, d1GetDocumentsByTags]
    rw [List.map_map]
    exact List.map_congr_left (fun d hd => rfl)

/-- The state for the C1 evaluation: document d1 stores the tag x. -/
def dbC1 : DB :=
  { documents := [⟨"d1", "t1", "i1", "p", 1, 1⟩], tags := [⟨"x", "d1"⟩] }

/-- The C1 evaluation call: upsert d1 again. -/
def docC1 : UpsertBody := ⟨"d1", "t1", "i1", "q"⟩

/-- Claim C1: evaluating the code at the failing inputs.  Starting from stored
tag set {x}: upserting with desired tags ["y"] leaves {x, y} in the
sqlite adapter (its removal set is computed against the existing tags
themselves and is always empty), not {y} as the claim requires; and
upserting with the empty list leaves {x} untouched in both adapters
instead of clearing it. -/
theorem C1_tag_diff_failing_inputs :
    (sqliteUpsertDocument dbC1 docC1 ["y"] 5).1.tags =
      [⟨"x", "d1"⟩, ⟨"y", "d1"⟩] ∧
    (sqliteUpsertDocument dbC1 docC1 ["y"] 5).2.isOk = true ∧
    ¬ ((sqliteUpsertDocument dbC1 docC1 ["y"] 5).1.tags = [⟨"y", "d1"⟩]) ∧
    (sqliteUpsertDocument dbC1 docC1 [] 5).1.tags = [⟨"x", "d1"⟩] ∧
    (sqliteUpsertDocument dbC1 docC1 [] 5).2.isOk = true ∧
    (d1IndexDocument dbC1 docC1 [] 5).1.tags = [⟨"x", "d1"⟩] ∧
    (d1IndexDocument dbC1 docC1 [] 5).2.isOk = true := by
  decide

/-! ### Witnesses: each hypothesis-carrying claim theorem applied at a
concrete input -/

/-- Witness for claim C2 at the one-document, one-tag state. -/
theorem C2_intersection_semantics_witness :
    dbC2.tags.Nodup ∧ (["x"] : List String).Nodup ∧
    ((formatMatched dbC2 ["x"] ⟨"d1", "t1", "i1", "p", 1, 1⟩ ∈
        sqliteGetDocumentsByTags dbC2 ["x"] ⟨"t1", none, none⟩ ↔
      ∃ r, r ∈ dbC2.documents ∧ r.tenant = "t1" ∧
        indexMatches none r.index = true ∧ (["x"] : List String) ≠ [] ∧
        (∀ t ∈ (["x"] : List String), TagRow.mk t r.id ∈ dbC2.tags) ∧
        formatMatched dbC2 ["x"] ⟨"d1", "t1", "i1", "p", 1, 1⟩ =
          formatMatched dbC2 ["x"] r) ∧
     (d1FormatDocument ⟨"d1", "t1", "i1", "p", 1, 1⟩ ∈
        d1GetDocumentsByTags dbC2 ["x"] ⟨"t1", none, none⟩ ↔
      ∃ r, r ∈ dbC2.documents ∧ r.tenant = "t1" ∧
        indexMatches none r.index = true ∧ (["x"] : List String) ≠ [] ∧
        (∀ t ∈ (["x"] : List String), TagRow.mk t r.id ∈ dbC2.tags) ∧
        d1FormatDocument ⟨"d1", "t1", "i1", "p", 1, 1⟩ = d1FormatDocument r)) :=
  ⟨by decide, by decide,
    C2_intersection_semantics dbC2 ["x"] "t1" none
      (formatMatched dbC2 ["x"] ⟨"d1", "t1", "i1", "p", 1, 1⟩)
      (d1FormatDocument ⟨"d1", "t1", "i1", "p", 1, 1⟩)
      (by decide) (by decide)⟩

/-- Witness for claim C3 at the one-document, one-tag state. -/
theorem C3_adapters_agree_witness :
    WF dbC3 ∧
    (((sqliteGetDocument dbC3 "doc1").map toD1Fields =
        d1GetDocument dbC3 "doc1") ∧
     ((sqliteGetDocuments dbC3 ⟨"ten", none, none⟩).map toD1Fields =
        d1GetDocuments dbC3 ⟨"ten", none, none⟩) ∧
     ((sqliteGetDocumentsByTags dbC3 ["new"] ⟨"ten", none, none⟩).map toD1Fields =
        d1GetDocumentsByTags dbC3 ["new"] ⟨"ten", none, none⟩) ∧
     (sqliteDeleteDocument dbC3 "doc1" = d1DeleteDocument dbC3 "doc1") ∧
     (sqliteGetTags dbC3 = d1GetTags dbC3) ∧
     ((sqliteUpsertDocument dbC3 docC3 ["new"] 7).1.documents =
        (d1IndexDocument dbC3 docC3 ["new"] 7).1.documents) ∧
     ((sqliteUpsertDocument dbC3 docC3 ["new"] 7).2.map (fun _ => ()) =
        (d1IndexDocument dbC3 docC3 ["new"] 7).2.map (fun _ => ()))) :=
  ⟨by decide,
    C3_adapters_agree dbC3 "doc1" ⟨"ten", none, none⟩ ["new"] docC3 7 (by decide)⟩

/-- The fresh-insert state for the C4 witness: an empty store. -/
def dbC4W : DB := { documents := [], tags := [] }

/-- The insert-branch call for the C4 witness. -/
def docC4W : UpsertBody := ⟨"n1", "t", "i", "d"⟩

/-- The update-branch state for the C4 witness. -/
def dbC4W2 : DB := { documents := [⟨"u1", "t", "i", "d0", 1, 2⟩], tags := [] }

/-- The update-branch call for the C4 witness. -/
def docC4W2 : UpsertBody := ⟨"u1", "t", "i", "d2"⟩

/-- Witness for claim C4: an insert into the empty store — with a
duplicate-carrying tag list, whose failing tag statement does not undo
the committed row — and an update of an existing row. -/
theorem C4_upsert_row_effects_witness :
    findExisting dbC4W docC4W = none ∧
    (∀ r ∈ dbC4W.documents, r.id ≠ docC4W.id) ∧
    findExisting dbC4W2 docC4W2 = some ⟨"u1", "t", "i", "d0", 1, 2⟩ ∧
    (((sqliteUpsertDocument dbC4W docC4W ["a", "a"] 3).1.documents =
        dbC4W.documents ++
          [⟨docC4W.id, docC4W.tenant, docC4W.index, docC4W.data, 3, 3⟩]) ∧
     ((sqliteUpsertDocument dbC4W2 docC4W2 [] 9).1.documents =
        dbC4W2.documents.map (fun d =>
          if d.id == docC4W2.id then
            { d with data := docC4W2.data, updated_at := 9 }
          else d)) ∧
     List.Forall₂ (updateFrame docC4W2 9) dbC4W2.documents
       (dbC4W2.documents.map (fun d =>
         if d.id == docC4W2.id then
           { d with data := docC4W2.data, updated_at := 9 }
         else d))) :=
  ⟨by decide, by decide, by decide,
    C4_upsert_row_effects dbC4W docC4W ["a", "a"] 3 dbC4W2 docC4W2 [] 9
      ⟨"u1", "t", "i", "d0", 1, 2⟩
      (by decide) (by decide) (by decide)⟩

/-- The state for the C5 witness: id z stored under tenant tA. -/
def dbC5W : DB := { documents := [⟨"z", "tA", "iA", "d", 1, 1⟩], tags := [] }

/-- The call for the C5 witness: id z under a different tenant tB. -/
def docC5W : UpsertBody := ⟨"z", "tB", "iA", "d2"⟩

/-- Witness for claim C5: reusing an id under another tenant errors. -/
theorem C5_global_id_conflict_witness :
    WF dbC5W ∧ (⟨"z", "tA", "iA", "d", 1, 1⟩ : DocRow) ∈ dbC5W.documents ∧
    (⟨"z", "tA", "iA", "d", 1, 1⟩ : DocRow).id = docC5W.id ∧
    ((⟨"z", "tA", "iA", "d", 1, 1⟩ : DocRow).tenant ≠ docC5W.tenant ∨
      (⟨"z", "tA", "iA", "d", 1, 1⟩ : DocRow).index ≠ docC5W.index) ∧
    (findExisting dbC5W docC5W = none ∧
     sqliteUpsertDocument dbC5W docC5W [] 4 = (dbC5W, Except.error uniqueViolation) ∧
     d1IndexDocument dbC5W docC5W [] 4 = (dbC5W, Except.error uniqueViolation)) :=
  ⟨by decide, by decide, by decide, Or.inl (by decide),
    C5_global_id_conflict dbC5W ⟨"z", "tA", "iA", "d", 1, 1⟩ docC5W [] 4
      (by decide) (by decide) (by decide) (Or.inl (by decide))⟩

/-- The state for the C7 witness: one document with one tag row. -/
def dbC7W : DB := { documents := [⟨"k", "t", "i", "d", 1, 1⟩], tags := [⟨"g", "k"⟩] }

/-- Witness for claim C7: delete the stored document, and delete a
missing id as a no-op. -/
theorem C7_delete_completeness_witness :
    RefIntegrity dbC7W ∧ "nope" ∉ dbC7W.documents.map (fun d => d.id) ∧
    (sqliteGetDocument (sqliteDeleteDocument dbC7W "k") "k" = none ∧
     (∀ t ∈ (sqliteDeleteDocument dbC7W "k").tags, t.search_document_id ≠ "k") ∧
     d1GetDocument (d1DeleteDocument dbC7W "k") "k" = none ∧
     (∀ t ∈ (d1DeleteDocument dbC7W "k").tags, t.search_document_id ≠ "k") ∧
     sqliteDeleteDocument dbC7W "nope" = dbC7W ∧
     d1DeleteDocument dbC7W "nope" = dbC7W) :=
  ⟨by decide, by decide,
    C7_delete_completeness dbC7W "k" dbC7W "nope" (by decide) (by decide)⟩

/-- The state for the C9 witness: one document under tenant tX. -/
def dbC9W : DB := { documents := [⟨"m", "tX", "iX", "d", 1, 2⟩], tags := [] }

/-- Witness for claim C9: the row is readable and deletable by id alone. -/
theorem C9_id_only_access_witness :
    WF dbC9W ∧ (⟨"m", "tX", "iX", "d", 1, 2⟩ : DocRow) ∈ dbC9W.documents ∧
    (⟨"m", "tX", "iX", "d", 1, 2⟩ : DocRow).id = "m" ∧
    (sqliteGetDocument dbC9W "m" =
        some (formatDocument dbC9W ⟨"m", "tX", "iX", "d", 1, 2⟩) ∧
     d1GetDocument dbC9W "m" = some (d1FormatDocument ⟨"m", "tX", "iX", "d", 1, 2⟩) ∧
     (∀ d ∈ (sqliteDeleteDocument dbC9W "m").documents, d.id ≠ "m") ∧
     (∀ d ∈ (d1DeleteDocument dbC9W "m").documents, d.id ≠ "m")) :=
  ⟨by decide, by decide, by decide,
    C9_id_only_access dbC9W ⟨"m", "tX", "iX", "d", 1, 2⟩ "m"
      (by decide) (by decide) (by decide)⟩

end Workertown
